import Mathlib

/-!
# PPL command wrapper (`src/command.h`, `src/command.cpp`)

A shallow embedding of the RAII wrapper around the X-Plane command API:
`Command::find`, `Command::create`, `Command::handle`, `Command::trigger_once`,
`Command::hold_down`, `CommandHold`, `CommandAlreadyExists` and
`RegisteredCommandHandler<T>` with its static trampoline `handle`.

The program is stateful; every operation is a function on an explicit `World`:
the state of the host's Command Bus, the storage of the handler objects, and a
trace of every bus primitive invoked, every handler method invoked and every log
line written, in program order.
-/

namespace PPL

/-! ## Host types (`XPLMUtilities.h`) -/

/-- The type `XPLMCommandRef` is a `void*`; `none` is `nullptr`, `some t` a command token. -/
abbrev XPLMCommandRef := Option Nat

/-- The type `XPLMCommandPhase` is an `int`. -/
abbrev XPLMCommandPhase := Int

/-- The three phase constants of `XPLMUtilities.h`, a header that is not part of the
sources. They are taken as a parameter; the only fact used is that they are pairwise
distinct, which the `switch` in `RegisteredCommandHandler<T>::handle` needs in order
to compile (duplicate `case` labels are rejected). -/
structure XPLMPhaseTags where
  xplm_CommandBegin : XPLMCommandPhase
  xplm_CommandContinue : XPLMCommandPhase
  xplm_CommandEnd : XPLMCommandPhase
  begin_ne_continue : xplm_CommandBegin ≠ xplm_CommandContinue
  begin_ne_end : xplm_CommandBegin ≠ xplm_CommandEnd
  continue_ne_end : xplm_CommandContinue ≠ xplm_CommandEnd

/-- The values the X-Plane SDK gives the three constants. -/
def sdkTags : XPLMPhaseTags :=
  ⟨0, 1, 2, by decide, by decide, by decide⟩

/-- Address of a callback function handed to the bus: the trampoline
`RegisteredCommandHandler<T>::handle`, or some function of another plugin. -/
inductive Callback where
  | trampoline
  | foreign (address : Nat)
deriving DecidableEq, Repr

/-- One entry of the host's listener table: the four arguments of
`XPLMRegisterCommandHandler`. -/
structure Listener where
  cmd : XPLMCommandRef
  callback : Callback
  inBefore : Int
  refcon : Nat
deriving DecidableEq, Repr

/-- One entry of the host's command registry. -/
structure CommandEntry where
  name : String
  description : String
  token : Nat
deriving DecidableEq, Repr

/-- Modelled from the spec: the state of the external Command Bus (spec section 6), which
owns the registry of named commands and the table of phase listeners. The bus is the
host's `XPLM*` functions of `XPLMUtilities.h`; they are not among the sources. -/
structure CommandBus where
  registry : List CommandEntry
  listeners : List Listener
deriving DecidableEq, Repr

/-! ## `command.h` enumerations and the handler capability -/

/-- The `enum class CommandOutcome` (command.h:89-102). -/
inductive CommandOutcome where
  | Continue
  | Halt
  | Irrelevant
deriving DecidableEq, Repr

/-- The `enum class CommandPhase` (command.h:104-117). -/
inductive CommandPhase where
  | Begin
  | Continue
  | End
deriving DecidableEq, Repr

/-- The `class CommandHandler` (command.h:119-126): the three pure virtual methods of a
handler type `T` whose objects have state `σ`. A method returns its outcome and the
object's new state. -/
structure CommandHandler (σ : Type) where
  command_begin : σ → CommandOutcome × σ
  command_continue : σ → CommandOutcome × σ
  command_end : σ → CommandOutcome × σ

/-! ## The world -/

/-- Everything observable, in program order: calls of bus primitives, calls of handler
methods (tagged with the address of the handler object), and error log lines. -/
inductive Event where
  | XPLMFindCommand (name : String)
  | XPLMCreateCommand (name description : String)
  | XPLMCommandOnce (cmd : XPLMCommandRef)
  | XPLMCommandBegin (cmd : XPLMCommandRef)
  | XPLMCommandEnd (cmd : XPLMCommandRef)
  | XPLMRegisterCommandHandler (l : Listener)
  | XPLMUnregisterCommandHandler (l : Listener)
  | command_begin (refcon : Nat)
  | command_continue (refcon : Nat)
  | command_end (refcon : Nat)
  | logError (msg : String)
deriving DecidableEq, Repr

/-- Program state: the bus, the handler objects that are alive (by address), the trace. -/
structure World (σ : Type) where
  bus : CommandBus
  heap : Nat → Option σ
  trace : List Event

/-- Append one event to the trace. -/
def World.emit {σ : Type} (w : World σ) (e : Event) : World σ :=
  { w with trace := w.trace ++ [e] }

/-- Write (or free, with `none`) the handler storage at an address. -/
def World.store {σ : Type} (w : World σ) (a : Nat) (v : Option σ) : World σ :=
  { w with heap := fun x => if x = a then v else w.heap x }

/-- The result of `std::string::c_str()` as a C API reads it: the characters before the
first NUL. -/
def c_str (s : String) : String :=
  String.mk (s.data.takeWhile (fun c => c != Char.ofNat 0))

/-! ## Bus primitives -/

/-- Modelled from the spec: `lookup(name) -> token | not_found` (spec section 6). -/
def CommandBus.lookup (bus : CommandBus) (name : String) : XPLMCommandRef :=
  match bus.registry.find? (fun e => e.name == name) with
  | some e => some e.token
  | none => none

/-- A token no registry entry uses. -/
def CommandBus.freshToken (bus : CommandBus) : Nat :=
  (bus.registry.map (fun e => e.token)).foldr max 0 + 1

/-- Modelled from the spec: `XPLMFindCommand`, the bus lookup; it reads the registry and
changes nothing. -/
def XPLMFindCommand {σ : Type} (name : String) (w : World σ) : XPLMCommandRef × World σ :=
  (w.bus.lookup name, w.emit (Event.XPLMFindCommand name))

/-- Modelled from the spec: `XPLMCreateCommand`, `create(name, description) -> token`
(spec section 6). A new name gets a fresh token and a registry entry; for a name that
collides, where the spec leaves the host free, the existing token is returned. -/
def XPLMCreateCommand {σ : Type} (name description : String) (w : World σ) :
    XPLMCommandRef × World σ :=
  let w1 := w.emit (Event.XPLMCreateCommand name description)
  match w.bus.lookup name with
  | some t => (some t, w1)
  | none =>
    let t := w.bus.freshToken
    (some t, { w1 with bus := { w.bus with registry := w.bus.registry ++ [⟨name, description, t⟩] } })

/-- Modelled from the spec: `XPLMCommandOnce`, `trigger_once(token)`; what the host does
with the notification is host-defined. -/
def XPLMCommandOnce {σ : Type} (cmd : XPLMCommandRef) (w : World σ) : World σ :=
  w.emit (Event.XPLMCommandOnce cmd)

/-- Modelled from the spec: `XPLMCommandBegin`, `begin(token)`. -/
def XPLMCommandBegin {σ : Type} (cmd : XPLMCommandRef) (w : World σ) : World σ :=
  w.emit (Event.XPLMCommandBegin cmd)

/-- Modelled from the spec: `XPLMCommandEnd`, `end(token)`. -/
def XPLMCommandEnd {σ : Type} (cmd : XPLMCommandRef) (w : World σ) : World σ :=
  w.emit (Event.XPLMCommandEnd cmd)

/-- Modelled from the spec: `XPLMRegisterCommandHandler`,
`register_phase_listener(token, callback_address, ordering_flag, context_address)`:
the listener is added to the table. -/
def XPLMRegisterCommandHandler {σ : Type} (cmd : XPLMCommandRef) (cb : Callback)
    (inBefore : Int) (refcon : Nat) (w : World σ) : World σ :=
  let l : Listener := ⟨cmd, cb, inBefore, refcon⟩
  let w1 := w.emit (Event.XPLMRegisterCommandHandler l)
  { w1 with bus := { w.bus with listeners := w.bus.listeners ++ [l] } }

/-- Modelled from the spec: `XPLMUnregisterCommandHandler`,
`unregister_phase_listener(token, callback_address, ordering_flag, context_address)`:
one listener equal to the four arguments is removed, if there is one. -/
def XPLMUnregisterCommandHandler {σ : Type} (cmd : XPLMCommandRef) (cb : Callback)
    (inBefore : Int) (refcon : Nat) (w : World σ) : World σ :=
  let l : Listener := ⟨cmd, cb, inBefore, refcon⟩
  let w1 := w.emit (Event.XPLMUnregisterCommandHandler l)
  { w1 with bus := { w.bus with listeners := w.bus.listeners.erase l } }

/-- Modelled from the spec: the logging service (`log.h` is not among the sources). One
statement `Log() << Log::Error << msg << Log::endl` writes one error line. -/
def logError {σ : Type} (msg : String) (w : World σ) : World σ :=
  w.emit (Event.logError msg)

/-- Conversion `bool -> int` at the call of a C function taking `int inBefore`. -/
def boolToInt (b : Bool) : Int :=
  if b then 1 else 0

/-! ## `Command`, `CommandAlreadyExists`, `CommandHold` -/

/-- The `class Command` (command.h:54-69): one private member, the token. -/
structure Command where
  cmd_ref : XPLMCommandRef
deriving DecidableEq, Repr

/-- The `class CommandAlreadyExists : std::runtime_error` (command.h:71-76); `what` is the
message of the exception, the C string `what()` returns. -/
structure CommandAlreadyExists where
  what : String
deriving DecidableEq, Repr

/-- Source function `CommandAlreadyExists::CommandAlreadyExists` (command.cpp:62-65): the
concatenated `std::string` is handed to `std::runtime_error`, whose message `what()` is
that string read as a C string. -/
def CommandAlreadyExists.ctor (command : String) : CommandAlreadyExists :=
  ⟨c_str ("The command `" ++ command ++ "` already exists. It cannot be created.")⟩

/-- Source function `Command::find` (command.cpp:43-51). -/
def Command.find {σ : Type} (name : String) (w : World σ) : Option Command × World σ :=
  let (cmd_ref, w1) := XPLMFindCommand (c_str name) w
  if cmd_ref = none then
    (none, w1)
  else
    (some ⟨cmd_ref⟩, w1)

/-- Source function `Command::create` (command.cpp:53-60); a thrown exception is
`Except.error`. -/
def Command.create {σ : Type} (name description : String) (w : World σ) :
    Except CommandAlreadyExists Command × World σ :=
  let (found, w1) := Command.find name w
  if found.isSome then
    (Except.error (CommandAlreadyExists.ctor name), w1)
  else
    let (cmd_ref, w2) := XPLMCreateCommand (c_str name) (c_str description) w1
    (Except.ok ⟨cmd_ref⟩, w2)

/-- Source function `Command::trigger_once` (command.cpp:74-77). -/
def Command.trigger_once {σ : Type} (self : Command) (w : World σ) : World σ :=
  XPLMCommandOnce self.cmd_ref w

/-- The `class CommandHold` (command.h:78-87). The member `Command& cmd` is a reference to a
`Command`, whose only member no operation of the class changes; the reference is
modelled by the object it refers to. -/
structure CommandHold where
  cmd : Command
deriving DecidableEq, Repr

/-- Source function `CommandHold::CommandHold` (command.cpp:84-88). -/
def CommandHold.ctor {σ : Type} (cmd : Command) (w : World σ) : CommandHold × World σ :=
  (⟨cmd⟩, XPLMCommandBegin cmd.cmd_ref w)

/-- Source function `CommandHold::~CommandHold` (command.cpp:90-93). -/
def CommandHold.dtor {σ : Type} (self : CommandHold) (w : World σ) : World σ :=
  XPLMCommandEnd self.cmd.cmd_ref w

/-- Source function `Command::hold_down` (command.cpp:79-82): the returned prvalue is
constructed in the caller's storage, so one constructor runs and no temporary is destroyed. -/
def Command.hold_down {σ : Type} (self : Command) (w : World σ) : CommandHold × World σ :=
  CommandHold.ctor self w

/-! ## `RegisteredCommandHandler<T>` -/

/-- The `class RegisteredCommandHandler<T>` (command.h:128-142). The object is described by
its members `cmd_ref`, `before_xp` and by `handler`, the address of the storage of its
member `T handler`; the handler object itself lives in the heap at that address. -/
structure RegisteredCommandHandler where
  cmd_ref : XPLMCommandRef
  before_xp : Bool
  handler : Nat
deriving DecidableEq, Repr

/-- Source function `RegisteredCommandHandler<T>::handle` (command.cpp:109-139), the
trampoline. The pointer `refcon` is dereferenced only in the three `case` branches;
dereferencing an address that holds no live handler has no defined result (`none`). -/
def RegisteredCommandHandler.handle {σ : Type} (H : CommandHandler σ) (tags : XPLMPhaseTags)
    (_ref : XPLMCommandRef) (phase : XPLMCommandPhase) (refcon : Nat) (w : World σ) :
    Option (Int × World σ) :=
  let r : Option (CommandOutcome × World σ) :=
    if phase = tags.xplm_CommandBegin then
      (w.heap refcon).map (fun st =>
        ((H.command_begin st).1,
          (w.emit (Event.command_begin refcon)).store refcon (some (H.command_begin st).2)))
    else if phase = tags.xplm_CommandContinue then
      (w.heap refcon).map (fun st =>
        ((H.command_continue st).1,
          (w.emit (Event.command_continue refcon)).store refcon (some (H.command_continue st).2)))
    else if phase = tags.xplm_CommandEnd then
      (w.heap refcon).map (fun st =>
        ((H.command_end st).1,
          (w.emit (Event.command_end refcon)).store refcon (some (H.command_end st).2)))
    else
      some (CommandOutcome.Continue,
        logError "XPLM has called a command handler with an invalid phase!" w)
  r.map (fun p =>
    match p.1 with
    | CommandOutcome.Irrelevant => (1, p.2)
    | CommandOutcome.Continue => (1, p.2)
    | CommandOutcome.Halt => (0, p.2))

/-- Source function `RegisteredCommandHandler<T>::RegisteredCommandHandler`
(command.cpp:95-107), run on the storage at address `this`: the members are initialised
(the handler is copied into the object's own storage) and the listener is registered with
`&handler` as context. -/
def RegisteredCommandHandler.ctor {σ : Type} (this : Nat) (cmd_ref : XPLMCommandRef)
    (before_xp : Bool) (handler_ : σ) (w : World σ) : RegisteredCommandHandler × World σ :=
  let self : RegisteredCommandHandler := ⟨cmd_ref, before_xp, this⟩
  let w1 := w.store self.handler (some handler_)
  (self, XPLMRegisterCommandHandler self.cmd_ref Callback.trampoline
    (boolToInt self.before_xp) self.handler w1)

/-- Source function `RegisteredCommandHandler<T>::~RegisteredCommandHandler`
(command.cpp:141-150): the body unregisters, then the member `handler` is destroyed. -/
def RegisteredCommandHandler.dtor {σ : Type} (self : RegisteredCommandHandler)
    (w : World σ) : World σ :=
  let w1 := XPLMUnregisterCommandHandler self.cmd_ref Callback.trampoline
    (boolToInt self.before_xp) self.handler w
  w1.store self.handler none

/-- The copy constructor the compiler supplies for `RegisteredCommandHandler<T>`
(command.h:128-142 declares a destructor and neither declares nor deletes a copy or a
move constructor): the object at address `this` receives member-wise copies of
`cmd_ref`, `before_xp` and `handler`. No bus primitive is called. -/
def RegisteredCommandHandler.copy {σ : Type} (this : Nat) (other : RegisteredCommandHandler)
    (w : World σ) : RegisteredCommandHandler × World σ :=
  (⟨other.cmd_ref, other.before_xp, this⟩, w.store this (w.heap other.handler))

/-- Source function `Command::handle` (command.cpp:67-72). The body is the expression
statement `RegisteredCommandHandler<T>(cmd_ref, before_xp, handler);`: a temporary, at an
address `tmp` of the compiler's choosing, is constructed and destroyed at the end of the
statement. The body has no `return`; no registration reaches the caller (`none`). -/
def Command.handle {σ : Type} (self : Command) (before_xp : Bool) (handler : σ) (tmp : Nat)
    (w : World σ) : Option RegisteredCommandHandler × World σ :=
  let (temporary, w1) := RegisteredCommandHandler.ctor tmp self.cmd_ref before_xp handler w
  (none, RegisteredCommandHandler.dtor temporary w1)

/-! ## The host delivering phase events -/

/-- The trampoline called once per phase of a list, in order, on the same context
pointer; the result is the list of decisions returned. -/
def handleAll {σ : Type} (H : CommandHandler σ) (tags : XPLMPhaseTags) (_ref : XPLMCommandRef)
    (refcon : Nat) : List XPLMCommandPhase → World σ → Option (List Int × World σ)
  | [], w => some ([], w)
  | phase :: rest, w =>
    match RegisteredCommandHandler.handle H tags _ref phase refcon w with
    | none => none
    | some (d, w1) =>
      match handleAll H tags _ref refcon rest w1 with
      | none => none
      | some (ds, w2) => some (d :: ds, w2)

/-- Modelled from the spec: the host invoking, for one phase event of a command, the
callback of each listener of a list in turn with the listener's context pointer
(spec section 2, control flow). Callbacks of other plugins are outside the program. -/
def deliverTo {σ : Type} (H : CommandHandler σ) (tags : XPLMPhaseTags) (cmd : XPLMCommandRef)
    (phase : XPLMCommandPhase) : List Listener → World σ → Option (List Int × World σ)
  | [], w => some ([], w)
  | l :: ls, w =>
    if l.cmd = cmd ∧ l.callback = Callback.trampoline then
      match RegisteredCommandHandler.handle H tags cmd phase l.refcon w with
      | none => none
      | some (d, w1) =>
        match deliverTo H tags cmd phase ls w1 with
        | none => none
        | some (ds, w2) => some (d :: ds, w2)
    else
      deliverTo H tags cmd phase ls w

/-- Modelled from the spec: one phase event of a command, delivered to the listeners the
bus holds at that moment, those registered "before" first (spec section 4.3). -/
def deliver {σ : Type} (H : CommandHandler σ) (tags : XPLMPhaseTags) (cmd : XPLMCommandRef)
    (phase : XPLMCommandPhase) (w : World σ) : Option (List Int × World σ) :=
  deliverTo H tags cmd phase
    (w.bus.listeners.filter (fun l => l.inBefore != 0) ++
      w.bus.listeners.filter (fun l => l.inBefore == 0)) w

/-- The handler method calls a trace records for the handler object at an address. -/
def callsAt (a : Nat) (trace : List Event) : List Event :=
  trace.filter (fun e =>
    e == Event.command_begin a || e == Event.command_continue a || e == Event.command_end a)

/-- The addresses a trace asked the bus to register as context. -/
def registeredContexts (trace : List Event) : List Nat :=
  trace.filterMap (fun e =>
    match e with
    | Event.XPLMRegisterCommandHandler l => some l.refcon
    | _ => none)

/-! ## Concrete data for the examples -/

/-- A world with an empty bus, no handler alive and an empty trace. -/
def emptyWorld (σ : Type) : World σ :=
  ⟨⟨[], []⟩, fun _ => none, []⟩

/-- The handler of the spec's scenario: `Halt` on begin, `Continue` elsewhere. Its state
counts the calls it received. -/
def toggleLight : CommandHandler Nat :=
  ⟨fun n => (CommandOutcome.Halt, n + 1),
   fun n => (CommandOutcome.Continue, n + 1),
   fun n => (CommandOutcome.Continue, n + 1)⟩

/-- A world whose handler storage at address 64 holds a live `toggleLight` object. -/
def liveWorld : World Nat :=
  (emptyWorld Nat).store 64 (some 0)

/-- A world in which one registration, for the command with token 7, is alive with its
handler storage at address 128. -/
def busyWorld : World Nat :=
  (RegisteredCommandHandler.ctor 128 (some 7) true 0 (emptyWorld Nat)).2

/-- The world `busyWorld` after two more registrations for the same command were
constructed, at addresses 64 ("before") and 192 ("after"): three lifetimes overlap. -/
def overlapWorld : World Nat :=
  (RegisteredCommandHandler.ctor 192 (some 7) false 0
    (RegisteredCommandHandler.ctor 64 (some 7) true 5 busyWorld).2).2

/-- A world in which the command `sim/lights/toggle` exists with token 7. -/
def litWorld : World Nat :=
  ⟨⟨[⟨"sim/lights/toggle", "Toggle the light", 7⟩], []⟩, fun _ => none, []⟩

/-! # Theorems -/

/-! ## Basic facts about the world and the bus -/

theorem find_fst {σ : Type} (n : String) (w : World σ) :
    (Command.find n w).1 = (w.bus.lookup (c_str n)).map (fun t => (⟨some t⟩ : Command)) := by
  unfold Command.find XPLMFindCommand
  cases h : w.bus.lookup (c_str n) <;> simp

theorem find_snd {σ : Type} (n : String) (w : World σ) :
    (Command.find n w).2 = w.emit (Event.XPLMFindCommand (c_str n)) := by
  unfold Command.find XPLMFindCommand
  cases h : w.bus.lookup (c_str n) <;> simp

/-! ## Claims -/

/-- C9: `Command::find` returns an optional and has no error channel; for every name and
every world it leaves the bus (and the handler storage) unchanged, its only bus call is
one lookup of the name, it returns empty exactly when that lookup reports not-found, and
otherwise it returns a handle wrapping exactly the token the lookup returned. -/
theorem find_frame_and_result {σ : Type} (n : String) (w : World σ) :
    (Command.find n w).2.bus = w.bus ∧
    (Command.find n w).2.heap = w.heap ∧
    (Command.find n w).2.trace = w.trace ++ [Event.XPLMFindCommand (c_str n)] ∧
    ((Command.find n w).1 = none ↔ w.bus.lookup (c_str n) = none) ∧
    (∀ t, w.bus.lookup (c_str n) = some t → (Command.find n w).1 = some ⟨some t⟩) := by
  rw [find_fst, find_snd]
  refine ⟨rfl, rfl, rfl, ?_, ?_⟩
  · cases w.bus.lookup (c_str n) <;> simp
  · intro t ht
    simp [ht]

theorem takeWhile_append_all {α : Type} (p : α → Bool) (xs ys : List α)
    (hys : ∀ y ∈ ys, p y = true) :
    (xs ++ ys).takeWhile p
      = xs.takeWhile p ++ (if ∀ x ∈ xs, p x = true then ys else []) := by
  induction xs with
  | nil =>
    simp only [List.nil_append, List.takeWhile_nil, List.not_mem_nil, false_implies,
      implies_true, if_true]
    exact List.takeWhile_eq_self_iff.2 hys
  | cons x xs ih =>
    cases hx : p x with
    | true => simp [List.takeWhile_cons, hx, ih]
    | false => simp [List.takeWhile_cons, hx]

theorem what_data (n : String) :
    (CommandAlreadyExists.ctor n).what.data
      = "The command `".data ++ (c_str n).data ++
        (if ∀ c ∈ n.data, (c != Char.ofNat 0) = true
          then "` already exists. It cannot be created.".data else []) := by
  have hA : ∀ c ∈ "The command `".data, (c != Char.ofNat 0) = true := by decide
  have hB : ∀ c ∈ "` already exists. It cannot be created.".data,
      (c != Char.ofNat 0) = true := by decide
  simp only [CommandAlreadyExists.ctor, c_str, String.data_append, List.append_assoc]
  rw [List.takeWhile_append_of_pos hA, takeWhile_append_all _ _ _ hB]

theorem create_existing {σ : Type} (n d : String) (w : World σ) (t : Nat)
    (h : w.bus.lookup (c_str n) = some t) :
    Command.create n d w
      = (Except.error (CommandAlreadyExists.ctor n),
          w.emit (Event.XPLMFindCommand (c_str n))) := by
  unfold Command.create
  have h1 := find_fst n w
  have h2 := find_snd n w
  rw [h] at h1
  cases hf : Command.find n w with
  | mk found w1 =>
    rw [hf] at h1 h2
    simp only at h1 h2
    subst h1 h2
    simp

/-- C4 refuted on the code: the name `sim/lights/toggle`, a NUL, `b` reaches the bus as
`sim/lights/toggle` and so resolves (to token 7); `Command::create` throws, and the
message of the exception stops at the NUL: it does not contain the name. -/
theorem create_message_cut_at_nul :
    litWorld.bus.lookup (c_str "sim/lights/toggle\x00b") = some 7 ∧
    (Command.create "sim/lights/toggle\x00b" "again" litWorld).1
      = Except.error ⟨"The command `sim/lights/toggle"⟩ ∧
    ¬ ("sim/lights/toggle\x00b".data <:+:
        (CommandAlreadyExists.ctor "sim/lights/toggle\x00b").what.data) := by
  refine ⟨by decide, ?_, ?_⟩
  · rw [create_existing "sim/lights/toggle\x00b" "again" litWorld 7 (by decide)]
    show Except.error (CommandAlreadyExists.ctor "sim/lights/toggle\x00b") = _
    rw [show CommandAlreadyExists.ctor "sim/lights/toggle\x00b"
      = ⟨"The command `sim/lights/toggle"⟩ by decide]
  intro hinf
  have hmem : Char.ofNat 0 ∈ (CommandAlreadyExists.ctor "sim/lights/toggle\x00b").what.data :=
    hinf.subset (by decide)
  revert hmem
  decide

/-- C4 as amended: for every name that already resolves in the bus (to a token `t`) and
every description, `Command::create` throws `CommandAlreadyExists` built from the name; the
message is the text ``The command ` `` followed by the name up to its first NUL, and, when
the name has no NUL, by the closing text, so the message contains the name as the bus
received it and contains the whole name when the name has no NUL; the only bus call made is
the lookup, so the create primitive is not called; the bus is unchanged and a later
`Command::find` of the name still yields the original token. -/
theorem create_existing_fails {σ : Type} (n d : String) (w : World σ) (t : Nat)
    (h : w.bus.lookup (c_str n) = some t) :
    (Command.create n d w).1 = Except.error (CommandAlreadyExists.ctor n) ∧
    (CommandAlreadyExists.ctor n).what.data
      = "The command `".data ++ (c_str n).data ++
        (if ∀ c ∈ n.data, (c != Char.ofNat 0) = true
          then "` already exists. It cannot be created.".data else []) ∧
    (c_str n).data <:+: (CommandAlreadyExists.ctor n).what.data ∧
    ((∀ c ∈ n.data, (c != Char.ofNat 0) = true) →
      (CommandAlreadyExists.ctor n).what
          = "The command `" ++ n ++ "` already exists. It cannot be created." ∧
        n.data <:+: (CommandAlreadyExists.ctor n).what.data) ∧
    (Command.create n d w).2.trace = w.trace ++ [Event.XPLMFindCommand (c_str n)] ∧
    (∀ a b, Event.XPLMCreateCommand a b ∉ (Command.create n d w).2.trace.drop w.trace.length) ∧
    (Command.create n d w).2.bus = w.bus ∧
    (Command.find n (Command.create n d w).2).1 = some ⟨some t⟩ := by
  rw [create_existing n d w t h]
  refine ⟨rfl, what_data n, ?_, ?_, rfl, ?_, rfl, ?_⟩
  · rw [what_data]
    exact ⟨"The command `".data, _, rfl⟩
  · intro hall
    have hcs : (c_str n).data = n.data := by
      simp only [c_str]
      exact List.takeWhile_eq_self_iff.2 hall
    have hw : (CommandAlreadyExists.ctor n).what.data
        = "The command `".data ++ n.data ++ "` already exists. It cannot be created.".data := by
      rw [what_data, hcs, if_pos hall]
    refine ⟨?_, ?_⟩
    · apply String.ext
      rw [hw]
      simp [String.data_append]
    · rw [hw]
      exact ⟨"The command `".data, _, rfl⟩
  · intro a b
    simp [World.emit]
  · rw [find_fst]
    show (w.bus.lookup (c_str n)).map _ = _
    rw [h]
    rfl

/-- Witness for C4 in a world where `sim/lights/toggle` exists with token 7. -/
theorem create_existing_fails_witness :
    litWorld.bus.lookup (c_str "sim/lights/toggle") = some 7 ∧
    (Command.create "sim/lights/toggle" "again" litWorld).1
      = Except.error (CommandAlreadyExists.ctor "sim/lights/toggle") ∧
    (CommandAlreadyExists.ctor "sim/lights/toggle").what
      = "The command `sim/lights/toggle` already exists. It cannot be created." ∧
    (Command.create "sim/lights/toggle" "again" litWorld).2.bus = litWorld.bus :=
  ⟨by decide,
   (create_existing_fails "sim/lights/toggle" "again" litWorld 7 (by decide)).1,
   ((create_existing_fails "sim/lights/toggle" "again" litWorld 7 (by decide)).2.2.2.1
      (by decide)).1,
   (create_existing_fails "sim/lights/toggle" "again" litWorld 7 (by decide)).2.2.2.2.2.2.1⟩

/-- C8: for every command and every world, `hold_down()` followed by the destruction of the
returned `CommandHold` adds to the trace exactly `XPLMCommandBegin` then `XPLMCommandEnd`,
both with the command's token: one begin, one end, no other bus call between or around
them; the begin is issued by `hold_down()` itself, and the bus state is untouched. -/
theorem hold_down_release {σ : Type} (cmd : Command) (w : World σ) :
    (cmd.hold_down w).2.trace = w.trace ++ [Event.XPLMCommandBegin cmd.cmd_ref] ∧
    (CommandHold.dtor (cmd.hold_down w).1 (cmd.hold_down w).2).trace
      = w.trace ++ [Event.XPLMCommandBegin cmd.cmd_ref, Event.XPLMCommandEnd cmd.cmd_ref] ∧
    (CommandHold.dtor (cmd.hold_down w).1 (cmd.hold_down w).2).bus = w.bus := by
  simp [Command.hold_down, CommandHold.ctor, CommandHold.dtor, XPLMCommandBegin,
    XPLMCommandEnd, World.emit]

/-! ## The trampoline, branch by branch -/

theorem handle_begin {σ : Type} (H : CommandHandler σ) (tags : XPLMPhaseTags)
    (_ref : XPLMCommandRef) (refcon : Nat) (w : World σ) (st : σ)
    (hlive : w.heap refcon = some st) :
    RegisteredCommandHandler.handle H tags _ref tags.xplm_CommandBegin refcon w
      = some (if (H.command_begin st).1 = CommandOutcome.Halt then 0 else 1,
          (w.emit (Event.command_begin refcon)).store refcon (some (H.command_begin st).2)) := by
  unfold RegisteredCommandHandler.handle
  simp only [if_true, hlive, Option.map_some']
  cases (H.command_begin st).1 <;> simp

theorem handle_continue {σ : Type} (H : CommandHandler σ) (tags : XPLMPhaseTags)
    (_ref : XPLMCommandRef) (refcon : Nat) (w : World σ) (st : σ)
    (hlive : w.heap refcon = some st) :
    RegisteredCommandHandler.handle H tags _ref tags.xplm_CommandContinue refcon w
      = some (if (H.command_continue st).1 = CommandOutcome.Halt then 0 else 1,
          (w.emit (Event.command_continue refcon)).store refcon
            (some (H.command_continue st).2)) := by
  unfold RegisteredCommandHandler.handle
  simp only [if_neg (Ne.symm tags.begin_ne_continue), if_true, hlive, Option.map_some']
  cases (H.command_continue st).1 <;> simp

theorem handle_end {σ : Type} (H : CommandHandler σ) (tags : XPLMPhaseTags)
    (_ref : XPLMCommandRef) (refcon : Nat) (w : World σ) (st : σ)
    (hlive : w.heap refcon = some st) :
    RegisteredCommandHandler.handle H tags _ref tags.xplm_CommandEnd refcon w
      = some (if (H.command_end st).1 = CommandOutcome.Halt then 0 else 1,
          (w.emit (Event.command_end refcon)).store refcon (some (H.command_end st).2)) := by
  unfold RegisteredCommandHandler.handle
  simp only [if_neg (Ne.symm tags.begin_ne_end), if_neg (Ne.symm tags.continue_ne_end),
    if_true, hlive, Option.map_some']
  cases (H.command_end st).1 <;> simp

theorem handle_invalid {σ : Type} (H : CommandHandler σ) (tags : XPLMPhaseTags)
    (_ref : XPLMCommandRef) (phase : XPLMCommandPhase) (refcon : Nat) (w : World σ)
    (hb : phase ≠ tags.xplm_CommandBegin) (hc : phase ≠ tags.xplm_CommandContinue)
    (he : phase ≠ tags.xplm_CommandEnd) :
    RegisteredCommandHandler.handle H tags _ref phase refcon w
      = some (1, logError "XPLM has called a command handler with an invalid phase!" w) := by
  unfold RegisteredCommandHandler.handle
  simp [hb, hc, he]

theorem store_emit_heap {σ : Type} (w : World σ) (e : Event) (a : Nat) (v : Option σ) :
    ((w.emit e).store a v).heap a = v := by
  simp [World.emit, World.store]

theorem store_emit_trace {σ : Type} (w : World σ) (e : Event) (a : Nat) (v : Option σ) :
    ((w.emit e).store a v).trace = w.trace ++ [e] := by
  simp [World.emit, World.store]

theorem store_emit_heap_other {σ : Type} (w : World σ) (e : Event) (a x : Nat) (v : Option σ)
    (hx : x ≠ a) : ((w.emit e).store a v).heap x = w.heap x := by
  simp [World.emit, World.store, hx]

theorem store_emit_bus {σ : Type} (w : World σ) (e : Event) (a : Nat) (v : Option σ) :
    ((w.emit e).store a v).bus = w.bus := rfl

theorem handleAll_continues {σ : Type} (H : CommandHandler σ) (tags : XPLMPhaseTags)
    (_ref : XPLMCommandRef) (refcon : Nat) (k : Nat) :
    ∀ (w : World σ) (st : σ), w.heap refcon = some st →
      ∃ w', handleAll H tags _ref refcon
          (List.replicate k tags.xplm_CommandContinue ++ [tags.xplm_CommandEnd]) w
            = some ((List.range k).map (fun i =>
                  if (H.command_continue ((fun s => (H.command_continue s).2)^[i] st)).1
                    = CommandOutcome.Halt then (0 : Int) else 1) ++
                [if (H.command_end ((fun s => (H.command_continue s).2)^[k] st)).1
                    = CommandOutcome.Halt then (0 : Int) else 1], w') ∧
        w'.trace = w.trace ++ List.replicate k (Event.command_continue refcon) ++
          [Event.command_end refcon] ∧
        w'.heap refcon
          = some (H.command_end ((fun s => (H.command_continue s).2)^[k] st)).2 ∧
        (∀ x, x ≠ refcon → w'.heap x = w.heap x) ∧
        w'.bus = w.bus := by
  induction k with
  | zero =>
    intro w st hlive
    refine ⟨(w.emit (Event.command_end refcon)).store refcon (some (H.command_end st).2),
      ?_, ?_, ?_, ?_, rfl⟩
    · simp only [List.replicate_zero, List.nil_append, handleAll,
        handle_end H tags _ref refcon w st hlive]
      rfl
    · simp [store_emit_trace]
    · exact store_emit_heap _ _ _ _
    · intro x hx
      exact store_emit_heap_other _ _ _ _ _ hx
  | succ k ih =>
    intro w st hlive
    obtain ⟨w', h1, h2, h3, h4, h5⟩ := ih
      ((w.emit (Event.command_continue refcon)).store refcon (some (H.command_continue st).2))
      (H.command_continue st).2 (store_emit_heap _ _ _ _)
    refine ⟨w', ?_, ?_, ?_, ?_, ?_⟩
    · show handleAll H tags _ref refcon (tags.xplm_CommandContinue ::
          (List.replicate k tags.xplm_CommandContinue ++ [tags.xplm_CommandEnd])) w = _
      simp only [handleAll, handle_continue H tags _ref refcon w st hlive, h1]
      simp [List.range_succ_eq_map, List.map_map, Function.comp_def,
        Function.iterate_succ_apply]
    · rw [h2, store_emit_trace]
      simp [List.replicate_succ]
    · rw [h3, Function.iterate_succ_apply]
    · intro x hx
      rw [h4 x hx, store_emit_heap_other _ _ _ _ _ hx]
    · rw [h5, store_emit_bus]

/-- C1: for every handler type, every live handler object and each of the three recognised
phases, the trampoline returns 1 (proceed) when the handler method of that phase returns
`Continue` or `Irrelevant`, and 0 (suppress) when it returns `Halt`. -/
theorem handle_decision {σ : Type} (H : CommandHandler σ) (tags : XPLMPhaseTags)
    (_ref : XPLMCommandRef) (refcon : Nat) (w : World σ) (st : σ)
    (hlive : w.heap refcon = some st) :
    (((H.command_begin st).1 = CommandOutcome.Continue ∨
        (H.command_begin st).1 = CommandOutcome.Irrelevant) →
      (RegisteredCommandHandler.handle H tags _ref tags.xplm_CommandBegin refcon w).map Prod.fst
        = some 1) ∧
    ((H.command_begin st).1 = CommandOutcome.Halt →
      (RegisteredCommandHandler.handle H tags _ref tags.xplm_CommandBegin refcon w).map Prod.fst
        = some 0) ∧
    (((H.command_continue st).1 = CommandOutcome.Continue ∨
        (H.command_continue st).1 = CommandOutcome.Irrelevant) →
      (RegisteredCommandHandler.handle H tags _ref tags.xplm_CommandContinue refcon w).map Prod.fst
        = some 1) ∧
    ((H.command_continue st).1 = CommandOutcome.Halt →
      (RegisteredCommandHandler.handle H tags _ref tags.xplm_CommandContinue refcon w).map Prod.fst
        = some 0) ∧
    (((H.command_end st).1 = CommandOutcome.Continue ∨
        (H.command_end st).1 = CommandOutcome.Irrelevant) →
      (RegisteredCommandHandler.handle H tags _ref tags.xplm_CommandEnd refcon w).map Prod.fst
        = some 1) ∧
    ((H.command_end st).1 = CommandOutcome.Halt →
      (RegisteredCommandHandler.handle H tags _ref tags.xplm_CommandEnd refcon w).map Prod.fst
        = some 0) := by
  rw [handle_begin H tags _ref refcon w st hlive, handle_continue H tags _ref refcon w st hlive,
    handle_end H tags _ref refcon w st hlive]
  refine ⟨?_, ?_, ?_, ?_, ?_, ?_⟩ <;> intro h
  · rcases h with h | h <;> simp [h]
  · simp [h]
  · rcases h with h | h <;> simp [h]
  · simp [h]
  · rcases h with h | h <;> simp [h]
  · simp [h]

/-- Witness for C1, the spec's scenario: the handler returning `Halt` on begin and
`Continue` elsewhere yields suppress for Begin and proceed for Continue and End. -/
theorem handle_decision_witness :
    liveWorld.heap 64 = some 0 ∧
    (RegisteredCommandHandler.handle toggleLight sdkTags (some 7)
      sdkTags.xplm_CommandBegin 64 liveWorld).map Prod.fst = some 0 ∧
    (RegisteredCommandHandler.handle toggleLight sdkTags (some 7)
      sdkTags.xplm_CommandContinue 64 liveWorld).map Prod.fst = some 1 ∧
    (RegisteredCommandHandler.handle toggleLight sdkTags (some 7)
      sdkTags.xplm_CommandEnd 64 liveWorld).map Prod.fst = some 1 :=
  ⟨rfl,
   (handle_decision toggleLight sdkTags (some 7) 64 liveWorld 0 rfl).2.1 rfl,
   (handle_decision toggleLight sdkTags (some 7) 64 liveWorld 0 rfl).2.2.1 (Or.inl rfl),
   (handle_decision toggleLight sdkTags (some 7) 64 liveWorld 0 rfl).2.2.2.2.1 (Or.inl rfl)⟩

/-- C6: for every handler type, every context pointer (live or not) and every phase value
other than the three recognised ones, the trampoline returns a result, the result is 1
(proceed), the trace grows by exactly one error log line and by nothing else, so none of the
three handler methods is called, and neither the handler storage nor the bus changes. -/
theorem handle_invalid_phase {σ : Type} (H : CommandHandler σ) (tags : XPLMPhaseTags)
    (_ref : XPLMCommandRef) (phase : XPLMCommandPhase) (refcon : Nat) (w : World σ)
    (hb : phase ≠ tags.xplm_CommandBegin) (hc : phase ≠ tags.xplm_CommandContinue)
    (he : phase ≠ tags.xplm_CommandEnd) :
    ∃ w', RegisteredCommandHandler.handle H tags _ref phase refcon w = some (1, w') ∧
      w'.trace = w.trace ++
        [Event.logError "XPLM has called a command handler with an invalid phase!"] ∧
      (∀ a, callsAt a w'.trace = callsAt a w.trace) ∧
      w'.heap = w.heap ∧ w'.bus = w.bus := by
  refine ⟨_, handle_invalid H tags _ref phase refcon w hb hc he, rfl, ?_, rfl, rfl⟩
  intro a
  simp [logError, World.emit, callsAt, List.filter_append]

/-- Witness for C6: phase value 3 under the SDK's constants, with a dangling context. -/
theorem handle_invalid_phase_witness :
    (3 : Int) ≠ sdkTags.xplm_CommandBegin ∧ (3 : Int) ≠ sdkTags.xplm_CommandContinue ∧
    (3 : Int) ≠ sdkTags.xplm_CommandEnd ∧
    ∃ w', RegisteredCommandHandler.handle toggleLight sdkTags (some 7) 3 99 liveWorld
        = some (1, w') ∧
      w'.trace = liveWorld.trace ++
        [Event.logError "XPLM has called a command handler with an invalid phase!"] ∧
      (∀ a, callsAt a w'.trace = callsAt a liveWorld.trace) ∧
      w'.heap = liveWorld.heap ∧ w'.bus = liveWorld.bus :=
  ⟨by decide, by decide, by decide,
   handle_invalid_phase toggleLight sdkTags (some 7) 3 99 liveWorld
     (by decide) (by decide) (by decide)⟩

/-- C7: for every handler type and every live handler object, a Begin, Continue or End
event delivered to the trampoline calls exactly the matching method once: the trampoline
returns the decision for the outcome that `command_begin`, `command_continue` or
`command_end` respectively gives on the object, the object is left in the state that method
leaves it in, the trace grows by exactly that one call, and no other handler storage and
nothing of the bus changes. For every `k` the sequence Begin, `k` times Continue, End is
processed to completion: the trace grows by one `command_begin`, then `k`
`command_continue`, then one `command_end`, the decisions are those of `command_begin` on
the initial state, of `command_continue` on each successive state and of `command_end` on
the state after them, and the object ends in the state these `k + 2` calls produce. -/
theorem handle_calls_matching_method {σ : Type} (H : CommandHandler σ) (tags : XPLMPhaseTags)
    (_ref : XPLMCommandRef) (refcon : Nat) (w : World σ) (st : σ)
    (hlive : w.heap refcon = some st) :
    (∃ w', RegisteredCommandHandler.handle H tags _ref tags.xplm_CommandBegin refcon w
        = some (if (H.command_begin st).1 = CommandOutcome.Halt then 0 else 1, w') ∧
      w'.trace = w.trace ++ [Event.command_begin refcon] ∧
      w'.heap refcon = some (H.command_begin st).2 ∧
      (∀ x, x ≠ refcon → w'.heap x = w.heap x) ∧ w'.bus = w.bus) ∧
    (∃ w', RegisteredCommandHandler.handle H tags _ref tags.xplm_CommandContinue refcon w
        = some (if (H.command_continue st).1 = CommandOutcome.Halt then 0 else 1, w') ∧
      w'.trace = w.trace ++ [Event.command_continue refcon] ∧
      w'.heap refcon = some (H.command_continue st).2 ∧
      (∀ x, x ≠ refcon → w'.heap x = w.heap x) ∧ w'.bus = w.bus) ∧
    (∃ w', RegisteredCommandHandler.handle H tags _ref tags.xplm_CommandEnd refcon w
        = some (if (H.command_end st).1 = CommandOutcome.Halt then 0 else 1, w') ∧
      w'.trace = w.trace ++ [Event.command_end refcon] ∧
      w'.heap refcon = some (H.command_end st).2 ∧
      (∀ x, x ≠ refcon → w'.heap x = w.heap x) ∧ w'.bus = w.bus) ∧
    ∀ k : Nat, ∃ w',
      handleAll H tags _ref refcon
        (tags.xplm_CommandBegin ::
          (List.replicate k tags.xplm_CommandContinue ++ [tags.xplm_CommandEnd])) w
        = some ((if (H.command_begin st).1 = CommandOutcome.Halt then (0 : Int) else 1) ::
            ((List.range k).map (fun i =>
                if (H.command_continue
                    ((fun s => (H.command_continue s).2)^[i] (H.command_begin st).2)).1
                  = CommandOutcome.Halt then (0 : Int) else 1) ++
              [if (H.command_end
                    ((fun s => (H.command_continue s).2)^[k] (H.command_begin st).2)).1
                  = CommandOutcome.Halt then (0 : Int) else 1]), w') ∧
      w'.trace = w.trace ++ [Event.command_begin refcon] ++
        List.replicate k (Event.command_continue refcon) ++ [Event.command_end refcon] ∧
      w'.heap refcon
        = some (H.command_end
            ((fun s => (H.command_continue s).2)^[k] (H.command_begin st).2)).2 ∧
      (∀ x, x ≠ refcon → w'.heap x = w.heap x) ∧ w'.bus = w.bus := by
  refine ⟨⟨_, handle_begin H tags _ref refcon w st hlive, store_emit_trace _ _ _ _,
      store_emit_heap _ _ _ _, fun x hx => store_emit_heap_other _ _ _ _ _ hx, rfl⟩,
    ⟨_, handle_continue H tags _ref refcon w st hlive, store_emit_trace _ _ _ _,
      store_emit_heap _ _ _ _, fun x hx => store_emit_heap_other _ _ _ _ _ hx, rfl⟩,
    ⟨_, handle_end H tags _ref refcon w st hlive, store_emit_trace _ _ _ _,
      store_emit_heap _ _ _ _, fun x hx => store_emit_heap_other _ _ _ _ _ hx, rfl⟩, ?_⟩
  intro k
  obtain ⟨w', h1, h2, h3, h4, h5⟩ := handleAll_continues H tags _ref refcon k
    ((w.emit (Event.command_begin refcon)).store refcon (some (H.command_begin st).2))
    (H.command_begin st).2 (store_emit_heap _ _ _ _)
  refine ⟨w', ?_, ?_, h3, ?_, ?_⟩
  · simp only [handleAll, handle_begin H tags _ref refcon w st hlive, h1]
  · rw [h2, store_emit_trace]
  · intro x hx
    rw [h4 x hx, store_emit_heap_other _ _ _ _ _ hx]
  · rw [h5, store_emit_bus]

/-- Witness for C7: the scenario's handler, alive at address 64 with its call counter at
0, driven through Begin, Continue, Continue, End: the decisions are suppress, proceed,
proceed, proceed, the four calls are recorded in order, and the counter ends at 4. -/
theorem handle_calls_matching_method_witness :
    liveWorld.heap 64 = some 0 ∧
    ∃ w',
      handleAll toggleLight sdkTags (some 7) 64
        (sdkTags.xplm_CommandBegin ::
          (List.replicate 2 sdkTags.xplm_CommandContinue ++ [sdkTags.xplm_CommandEnd])) liveWorld
        = some ([0, 1, 1, 1], w') ∧
      w'.trace = [Event.command_begin 64, Event.command_continue 64,
        Event.command_continue 64, Event.command_end 64] ∧
      w'.heap 64 = some 4 := by
  refine ⟨rfl, ?_⟩
  obtain ⟨w', h1, h2, h3, -, -⟩ :=
    (handle_calls_matching_method toggleLight sdkTags (some 7) 64 liveWorld 0 rfl).2.2.2 2
  exact ⟨w', h1, h2, h3⟩

theorem ctor_eq {σ : Type} (a : Nat) (cmd : XPLMCommandRef) (before : Bool) (h : σ)
    (w : World σ) :
    RegisteredCommandHandler.ctor a cmd before h w =
      (⟨cmd, before, a⟩,
        ⟨⟨w.bus.registry, w.bus.listeners ++ [⟨cmd, Callback.trampoline, boolToInt before, a⟩]⟩,
          fun x => if x = a then some h else w.heap x,
          w.trace ++ [Event.XPLMRegisterCommandHandler
            ⟨cmd, Callback.trampoline, boolToInt before, a⟩]⟩) := rfl

theorem dtor_eq {σ : Type} (self : RegisteredCommandHandler) (w : World σ) :
    RegisteredCommandHandler.dtor self w =
      ⟨⟨w.bus.registry, w.bus.listeners.erase
          ⟨self.cmd_ref, Callback.trampoline, boolToInt self.before_xp, self.handler⟩⟩,
        fun x => if x = self.handler then none else w.heap x,
        w.trace ++ [Event.XPLMUnregisterCommandHandler
          ⟨self.cmd_ref, Callback.trampoline, boolToInt self.before_xp, self.handler⟩]⟩ := rfl

theorem callsAt_append (a : Nat) (t1 t2 : List Event) :
    callsAt a (t1 ++ t2) = callsAt a t1 ++ callsAt a t2 := by
  simp [callsAt, List.filter_append]

theorem handle_trace {σ : Type} (H : CommandHandler σ) (tags : XPLMPhaseTags)
    (_ref : XPLMCommandRef) (phase : XPLMCommandPhase) (refcon : Nat) (w w1 : World σ) (d : Int)
    (h : RegisteredCommandHandler.handle H tags _ref phase refcon w = some (d, w1)) :
    w1.bus = w.bus ∧
    ∃ e, w1.trace = w.trace ++ [e] ∧
      (e = Event.command_begin refcon ∨ e = Event.command_continue refcon ∨
        e = Event.command_end refcon ∨
        e = Event.logError "XPLM has called a command handler with an invalid phase!") := by
  cases hh : w.heap refcon with
  | none =>
    by_cases hb : phase = tags.xplm_CommandBegin
    · simp [RegisteredCommandHandler.handle, hb, hh] at h
    · by_cases hc : phase = tags.xplm_CommandContinue
      · simp [RegisteredCommandHandler.handle, hb, hc, hh] at h
      · by_cases he : phase = tags.xplm_CommandEnd
        · simp [RegisteredCommandHandler.handle, hb, hc, he, hh] at h
        · rw [handle_invalid H tags _ref phase refcon w hb hc he] at h
          cases h
          exact ⟨rfl, _, rfl, Or.inr (Or.inr (Or.inr rfl))⟩
  | some st =>
    by_cases hb : phase = tags.xplm_CommandBegin
    · subst hb
      rw [handle_begin H tags _ref refcon w st hh] at h
      cases h
      exact ⟨rfl, _, store_emit_trace _ _ _ _, Or.inl rfl⟩
    · by_cases hc : phase = tags.xplm_CommandContinue
      · subst hc
        rw [handle_continue H tags _ref refcon w st hh] at h
        cases h
        exact ⟨rfl, _, store_emit_trace _ _ _ _, Or.inr (Or.inl rfl)⟩
      · by_cases he : phase = tags.xplm_CommandEnd
        · subst he
          rw [handle_end H tags _ref refcon w st hh] at h
          cases h
          exact ⟨rfl, _, store_emit_trace _ _ _ _, Or.inr (Or.inr (Or.inl rfl))⟩
        · rw [handle_invalid H tags _ref phase refcon w hb hc he] at h
          cases h
          exact ⟨rfl, _, rfl, Or.inr (Or.inr (Or.inr rfl))⟩

theorem handle_callsAt_other {σ : Type} (H : CommandHandler σ) (tags : XPLMPhaseTags)
    (_ref : XPLMCommandRef) (phase : XPLMCommandPhase) (refcon a : Nat) (w w1 : World σ) (d : Int)
    (h : RegisteredCommandHandler.handle H tags _ref phase refcon w = some (d, w1))
    (hne : refcon ≠ a) :
    callsAt a w1.trace = callsAt a w.trace := by
  obtain ⟨-, e, he, hcases⟩ := handle_trace H tags _ref phase refcon w w1 d h
  rw [he, callsAt_append]
  rcases hcases with h1 | h1 | h1 | h1 <;> subst h1 <;> simp [callsAt, hne]

theorem deliverTo_callsAt {σ : Type} (H : CommandHandler σ) (tags : XPLMPhaseTags)
    (cmd : XPLMCommandRef) (phase : XPLMCommandPhase) (a : Nat) (ls : List Listener) :
    ∀ (w : World σ) (r : List Int × World σ), (∀ l ∈ ls, l.refcon ≠ a) →
      deliverTo H tags cmd phase ls w = some r →
      callsAt a r.2.trace = callsAt a w.trace := by
  induction ls with
  | nil =>
    intro w r _ h
    simp only [deliverTo, Option.some.injEq] at h
    subst h
    rfl
  | cons l ls ih =>
    intro w r hall h
    have hl : l.refcon ≠ a := hall l (List.mem_cons_self _ _)
    have hls : ∀ x ∈ ls, x.refcon ≠ a := fun x hx => hall x (List.mem_cons_of_mem _ hx)
    unfold deliverTo at h
    split at h
    · cases hh : RegisteredCommandHandler.handle H tags cmd phase l.refcon w with
      | none => simp [hh] at h
      | some p =>
        obtain ⟨d, w1⟩ := p
        rw [hh] at h
        simp only at h
        cases hd : deliverTo H tags cmd phase ls w1 with
        | none => simp [hd] at h
        | some q =>
          rw [hd] at h
          simp only [Option.some.injEq] at h
          subst h
          rw [ih w1 q hls hd]
          exact handle_callsAt_other H tags cmd phase l.refcon a w w1 d hh hl
    · exact ih w r hls h

theorem deliver_callsAt {σ : Type} (H : CommandHandler σ) (tags : XPLMPhaseTags)
    (cmd : XPLMCommandRef) (phase : XPLMCommandPhase) (a : Nat) (w : World σ)
    (r : List Int × World σ) (hall : ∀ l ∈ w.bus.listeners, l.refcon ≠ a)
    (h : deliver H tags cmd phase w = some r) :
    callsAt a r.2.trace = callsAt a w.trace := by
  refine deliverTo_callsAt H tags cmd phase a _ w r ?_ h
  intro l hl
  rcases List.mem_append.1 hl with h1 | h1
  · exact hall l (List.mem_filter.1 h1).1
  · exact hall l (List.mem_filter.1 h1).1

theorem handle_live {σ : Type} (H : CommandHandler σ) (tags : XPLMPhaseTags)
    (_ref : XPLMCommandRef) (phase : XPLMCommandPhase) (refcon : Nat) (w : World σ) (st : σ)
    (hlive : w.heap refcon = some st) :
    ∃ d w1, RegisteredCommandHandler.handle H tags _ref phase refcon w = some (d, w1) ∧
      ∀ x, (w.heap x).isSome → (w1.heap x).isSome := by
  have hstore : ∀ (e : Event) (v : σ) (x : Nat), (w.heap x).isSome →
      (((w.emit e).store refcon (some v)).heap x).isSome := by
    intro e v x hx
    by_cases hxr : x = refcon
    · simp [World.emit, World.store, hxr]
    · simpa [World.emit, World.store, hxr] using hx
  by_cases hb : phase = tags.xplm_CommandBegin
  · subst hb
    exact ⟨_, _, handle_begin H tags _ref refcon w st hlive, hstore _ _⟩
  · by_cases hc : phase = tags.xplm_CommandContinue
    · subst hc
      exact ⟨_, _, handle_continue H tags _ref refcon w st hlive, hstore _ _⟩
    · by_cases he : phase = tags.xplm_CommandEnd
      · subst he
        exact ⟨_, _, handle_end H tags _ref refcon w st hlive, hstore _ _⟩
      · exact ⟨_, _, handle_invalid H tags _ref phase refcon w hb hc he, fun x hx => hx⟩

theorem deliverTo_isSome {σ : Type} (H : CommandHandler σ) (tags : XPLMPhaseTags)
    (cmd : XPLMCommandRef) (phase : XPLMCommandPhase) (ls : List Listener) :
    ∀ (w : World σ), (∀ l ∈ ls, (w.heap l.refcon).isSome) →
      (deliverTo H tags cmd phase ls w).isSome := by
  induction ls with
  | nil =>
    intro w _
    rfl
  | cons l ls ih =>
    intro w hall
    have hl : (w.heap l.refcon).isSome := hall l (List.mem_cons_self _ _)
    have hls : ∀ x ∈ ls, (w.heap x.refcon).isSome :=
      fun x hx => hall x (List.mem_cons_of_mem _ hx)
    unfold deliverTo
    split
    · obtain ⟨st, hst⟩ := Option.isSome_iff_exists.1 hl
      obtain ⟨d, w1, hh, hkeep⟩ := handle_live H tags cmd phase l.refcon w st hst
      rw [hh]
      simp only
      have hrest := ih w1 (fun x hx => hkeep _ (hls x hx))
      obtain ⟨q, hq⟩ := Option.isSome_iff_exists.1 hrest
      rw [hq]
      rfl
    · exact ih w hls

theorem deliver_isSome {σ : Type} (H : CommandHandler σ) (tags : XPLMPhaseTags)
    (cmd : XPLMCommandRef) (phase : XPLMCommandPhase) (w : World σ)
    (hall : ∀ l ∈ w.bus.listeners, (w.heap l.refcon).isSome) :
    (deliver H tags cmd phase w).isSome := by
  refine deliverTo_isSome H tags cmd phase _ w ?_
  intro l hl
  rcases List.mem_append.1 hl with h1 | h1
  · exact hall l (List.mem_filter.1 h1).1
  · exact hall l (List.mem_filter.1 h1).1

/-- C3 refuted on the code: a `RegisteredCommandHandler` made by the compiler-supplied
copy constructor (at address 128, from a registration at address 64) is constructed
without any bus call, so its construction issues no register call, while its destruction
issues one unregister call. -/
theorem copy_construction_registers_nothing :
    (RegisteredCommandHandler.copy 128
      (RegisteredCommandHandler.ctor 64 (some 7) false 0 (emptyWorld Nat)).1
      (RegisteredCommandHandler.ctor 64 (some 7) false 0 (emptyWorld Nat)).2).2.trace.drop
        (RegisteredCommandHandler.ctor 64 (some 7) false 0 (emptyWorld Nat)).2.trace.length
      = [] ∧
    (RegisteredCommandHandler.dtor
      (RegisteredCommandHandler.copy 128
        (RegisteredCommandHandler.ctor 64 (some 7) false 0 (emptyWorld Nat)).1
        (RegisteredCommandHandler.ctor 64 (some 7) false 0 (emptyWorld Nat)).2).1
      (RegisteredCommandHandler.copy 128
        (RegisteredCommandHandler.ctor 64 (some 7) false 0 (emptyWorld Nat)).1
        (RegisteredCommandHandler.ctor 64 (some 7) false 0 (emptyWorld Nat)).2).2).trace.drop
        (RegisteredCommandHandler.ctor 64 (some 7) false 0 (emptyWorld Nat)).2.trace.length
      = [Event.XPLMUnregisterCommandHandler ⟨some 7, Callback.trampoline, 0, 128⟩] := by
  decide

/-- C3 as amended: for every registration built by the class's declared constructor, and
destroyed with its members as constructed, construction adds exactly one event, a register
call, and destruction (in any later world) exactly one, an unregister call, carrying the
identical (token, trampoline, ordering flag, handler-storage address) tuple. Construction
on fresh storage leaves the bus holding that tuple once and no other listener with that
context address; when this is so in the world where the destructor runs (other
registrations may have come and gone meanwhile), destruction removes just that listener,
the tuple is then absent, no listener keeps the object's address, every later phase event
of every command leaves the handler calls recorded for that address unchanged, and such an
event is delivered to completion whenever the handlers of the remaining listeners are
alive. -/
theorem ctor_dtor_paired {σ : Type} (a : Nat) (cmd : XPLMCommandRef) (before : Bool) (h : σ)
    (w w' : World σ)
    (honce : w'.bus.listeners.count ⟨cmd, Callback.trampoline, boolToInt before, a⟩ = 1)
    (hown : ∀ l ∈ w'.bus.listeners, l.refcon = a →
      l = ⟨cmd, Callback.trampoline, boolToInt before, a⟩) :
    (RegisteredCommandHandler.ctor a cmd before h w).2.trace
      = w.trace ++ [Event.XPLMRegisterCommandHandler
          ⟨cmd, Callback.trampoline, boolToInt before, a⟩] ∧
    (RegisteredCommandHandler.ctor a cmd before h w).2.bus.listeners
      = w.bus.listeners ++ [⟨cmd, Callback.trampoline, boolToInt before, a⟩] ∧
    ((∀ l ∈ w.bus.listeners, l.refcon ≠ a) →
      (RegisteredCommandHandler.ctor a cmd before h w).2.bus.listeners.count
          ⟨cmd, Callback.trampoline, boolToInt before, a⟩ = 1 ∧
      ∀ l ∈ (RegisteredCommandHandler.ctor a cmd before h w).2.bus.listeners, l.refcon = a →
        l = ⟨cmd, Callback.trampoline, boolToInt before, a⟩) ∧
    (RegisteredCommandHandler.dtor (RegisteredCommandHandler.ctor a cmd before h w).1 w').trace
      = w'.trace ++ [Event.XPLMUnregisterCommandHandler
          ⟨cmd, Callback.trampoline, boolToInt before, a⟩] ∧
    (RegisteredCommandHandler.dtor (RegisteredCommandHandler.ctor a cmd before h w).1
      w').bus.listeners
      = w'.bus.listeners.erase ⟨cmd, Callback.trampoline, boolToInt before, a⟩ ∧
    (⟨cmd, Callback.trampoline, boolToInt before, a⟩ : Listener) ∉
      (RegisteredCommandHandler.dtor (RegisteredCommandHandler.ctor a cmd before h w).1
        w').bus.listeners ∧
    (∀ l ∈ (RegisteredCommandHandler.dtor (RegisteredCommandHandler.ctor a cmd before h w).1
        w').bus.listeners, l.refcon ≠ a) ∧
    (∀ (H : CommandHandler σ) (tags : XPLMPhaseTags) (c : XPLMCommandRef)
      (phase : XPLMCommandPhase) (r : List Int × World σ),
      deliver H tags c phase
        (RegisteredCommandHandler.dtor (RegisteredCommandHandler.ctor a cmd before h w).1 w')
          = some r →
      callsAt a r.2.trace = callsAt a
        (RegisteredCommandHandler.dtor (RegisteredCommandHandler.ctor a cmd before h w).1
          w').trace) ∧
    ((∀ l ∈ (RegisteredCommandHandler.dtor
          (RegisteredCommandHandler.ctor a cmd before h w).1 w').bus.listeners,
        ((RegisteredCommandHandler.dtor
          (RegisteredCommandHandler.ctor a cmd before h w).1 w').heap l.refcon).isSome) →
      ∀ (H : CommandHandler σ) (tags : XPLMPhaseTags) (c : XPLMCommandRef)
        (phase : XPLMCommandPhase),
        (deliver H tags c phase
          (RegisteredCommandHandler.dtor (RegisteredCommandHandler.ctor a cmd before h w).1
            w')).isSome) := by
  have hl : (RegisteredCommandHandler.dtor (RegisteredCommandHandler.ctor a cmd before h w).1
      w').bus.listeners
      = w'.bus.listeners.erase ⟨cmd, Callback.trampoline, boolToInt before, a⟩ := rfl
  have habsent : (⟨cmd, Callback.trampoline, boolToInt before, a⟩ : Listener) ∉
      w'.bus.listeners.erase ⟨cmd, Callback.trampoline, boolToInt before, a⟩ := by
    rw [← List.count_eq_zero, List.count_erase_self, honce]
  have hnone : ∀ l ∈ w'.bus.listeners.erase ⟨cmd, Callback.trampoline, boolToInt before, a⟩,
      l.refcon ≠ a := by
    intro l hm heq
    have hl' := hown l (List.mem_of_mem_erase hm) heq
    rw [hl'] at hm
    exact habsent hm
  refine ⟨rfl, rfl, ?_, rfl, hl, ?_, ?_, ?_, ?_⟩
  · intro hfresh
    have hnot : (⟨cmd, Callback.trampoline, boolToInt before, a⟩ : Listener) ∉
        w.bus.listeners := fun hm => hfresh _ hm rfl
    rw [ctor_eq]
    refine ⟨?_, ?_⟩
    · simp [List.count_append, List.count_eq_zero.2 hnot]
    · intro l hm heq
      rcases List.mem_append.1 hm with h1 | h1
      · exact absurd heq (hfresh l h1)
      · simpa using h1
  · rw [hl]
    exact habsent
  · rw [hl]
    exact hnone
  · intro H tags c phase r hr
    refine deliver_callsAt H tags c phase a _ r ?_ hr
    rw [hl]
    exact hnone
  · intro halive H tags c phase
    exact deliver_isSome H tags c phase _ halive

/-- Witness for C3: three registrations for one command are alive at addresses 128, 64
and 192; the one at 64 is destroyed first. Its tuple is then absent, and a Begin event
calls the handlers at 128 and 192 only. -/
theorem ctor_dtor_paired_witness :
    overlapWorld.bus.listeners.count ⟨some 7, Callback.trampoline, boolToInt true, 64⟩ = 1 ∧
    (∀ l ∈ overlapWorld.bus.listeners, l.refcon = 64 →
      l = ⟨some 7, Callback.trampoline, boolToInt true, 64⟩) ∧
    (⟨some 7, Callback.trampoline, boolToInt true, 64⟩ : Listener) ∉
      (RegisteredCommandHandler.dtor
        (RegisteredCommandHandler.ctor 64 (some 7) true 5 busyWorld).1
        overlapWorld).bus.listeners ∧
    (deliver toggleLight sdkTags (some 7) sdkTags.xplm_CommandBegin
      (RegisteredCommandHandler.dtor
        (RegisteredCommandHandler.ctor 64 (some 7) true 5 busyWorld).1
        overlapWorld)).map (fun r => (r.1, r.2.trace.drop 4))
      = some ([0, 0], [Event.command_begin 128, Event.command_begin 192]) :=
  ⟨by decide, by decide,
   (ctor_dtor_paired 64 (some 7) true 5 busyWorld overlapWorld
      (by decide) (by decide)).2.2.2.2.2.1,
   by decide⟩

/-- C2 on the code: `Command::handle` on an empty bus, token 7, ordering "before". When the
body ends no registration has been handed to the caller, the bus has received a register
call and the matching unregister call, and it holds no listener at all. -/
theorem handle_drops_registration :
    (Command.handle ⟨some 7⟩ true 0 64 (emptyWorld Nat)).1 = none ∧
    (Command.handle ⟨some 7⟩ true 0 64 (emptyWorld Nat)).2.trace
      = [Event.XPLMRegisterCommandHandler ⟨some 7, Callback.trampoline, 1, 64⟩,
         Event.XPLMUnregisterCommandHandler ⟨some 7, Callback.trampoline, 1, 64⟩] ∧
    (Command.handle ⟨some 7⟩ true 0 64 (emptyWorld Nat)).2.bus.listeners = [] ∧
    (Command.handle ⟨some 7⟩ true 0 64 (emptyWorld Nat)).2.heap 64 = none := by
  decide

/-- C10 refuted on the code: a registration constructed at address 64 is copied by the
compiler-supplied copy constructor to address 128. The copy is a second object at another
address, making it calls no bus primitive, and destroying it sends the bus an unregister
call for address 128, which no register call ever named; the listener for 64 stays. -/
theorem copy_unregisters_unregistered :
    (RegisteredCommandHandler.copy 128
      (RegisteredCommandHandler.ctor 64 (some 7) true 0 (emptyWorld Nat)).1
      (RegisteredCommandHandler.ctor 64 (some 7) true 0 (emptyWorld Nat)).2).1.handler = 128 ∧
    (RegisteredCommandHandler.copy 128
      (RegisteredCommandHandler.ctor 64 (some 7) true 0 (emptyWorld Nat)).1
      (RegisteredCommandHandler.ctor 64 (some 7) true 0 (emptyWorld Nat)).2).2.trace
      = [Event.XPLMRegisterCommandHandler ⟨some 7, Callback.trampoline, 1, 64⟩] ∧
    (RegisteredCommandHandler.dtor
      (RegisteredCommandHandler.copy 128
        (RegisteredCommandHandler.ctor 64 (some 7) true 0 (emptyWorld Nat)).1
        (RegisteredCommandHandler.ctor 64 (some 7) true 0 (emptyWorld Nat)).2).1
      (RegisteredCommandHandler.copy 128
        (RegisteredCommandHandler.ctor 64 (some 7) true 0 (emptyWorld Nat)).1
        (RegisteredCommandHandler.ctor 64 (some 7) true 0 (emptyWorld Nat)).2).2).trace
      = [Event.XPLMRegisterCommandHandler ⟨some 7, Callback.trampoline, 1, 64⟩,
         Event.XPLMUnregisterCommandHandler ⟨some 7, Callback.trampoline, 1, 128⟩] ∧
    128 ∉ registeredContexts
      (RegisteredCommandHandler.dtor
        (RegisteredCommandHandler.copy 128
          (RegisteredCommandHandler.ctor 64 (some 7) true 0 (emptyWorld Nat)).1
          (RegisteredCommandHandler.ctor 64 (some 7) true 0 (emptyWorld Nat)).2).1
        (RegisteredCommandHandler.copy 128
          (RegisteredCommandHandler.ctor 64 (some 7) true 0 (emptyWorld Nat)).1
          (RegisteredCommandHandler.ctor 64 (some 7) true 0 (emptyWorld Nat)).2).2).trace ∧
    (RegisteredCommandHandler.dtor
      (RegisteredCommandHandler.copy 128
        (RegisteredCommandHandler.ctor 64 (some 7) true 0 (emptyWorld Nat)).1
        (RegisteredCommandHandler.ctor 64 (some 7) true 0 (emptyWorld Nat)).2).1
      (RegisteredCommandHandler.copy 128
        (RegisteredCommandHandler.ctor 64 (some 7) true 0 (emptyWorld Nat)).1
        (RegisteredCommandHandler.ctor 64 (some 7) true 0 (emptyWorld Nat)).2).2).bus.listeners
      = [⟨some 7, Callback.trampoline, 1, 64⟩] := by
  decide

/-- C10 as amended: for every registration, construction registers the address of the
object's own handler storage, where the handler is then alive, and destruction (in any
later world) unregisters that same address; the compiler-supplied copy constructor places
a copy at any address without touching the bus or the trace, so the copy is not
registered, and destroying the copy issues an unregister call for the copy's own address. -/
theorem registration_context_is_own_storage {σ : Type} (a b : Nat) (cmd : XPLMCommandRef)
    (before : Bool) (h : σ) (w w' : World σ) :
    (RegisteredCommandHandler.ctor a cmd before h w).1.handler = a ∧
    (RegisteredCommandHandler.ctor a cmd before h w).2.heap a = some h ∧
    (⟨cmd, Callback.trampoline, boolToInt before, a⟩ : Listener) ∈
      (RegisteredCommandHandler.ctor a cmd before h w).2.bus.listeners ∧
    (RegisteredCommandHandler.dtor (RegisteredCommandHandler.ctor a cmd before h w).1 w').trace
      = w'.trace ++ [Event.XPLMUnregisterCommandHandler
          ⟨cmd, Callback.trampoline, boolToInt before, a⟩] ∧
    (RegisteredCommandHandler.copy b (RegisteredCommandHandler.ctor a cmd before h w).1 w').1
      = ⟨cmd, before, b⟩ ∧
    (RegisteredCommandHandler.copy b (RegisteredCommandHandler.ctor a cmd before h w).1 w').2.bus
      = w'.bus ∧
    (RegisteredCommandHandler.copy b (RegisteredCommandHandler.ctor a cmd before h w).1
      w').2.trace = w'.trace ∧
    (RegisteredCommandHandler.dtor
      (RegisteredCommandHandler.copy b (RegisteredCommandHandler.ctor a cmd before h w).1 w').1
      (RegisteredCommandHandler.copy b (RegisteredCommandHandler.ctor a cmd before h w).1
        w').2).trace
      = w'.trace ++ [Event.XPLMUnregisterCommandHandler
          ⟨cmd, Callback.trampoline, boolToInt before, b⟩] := by
  refine ⟨rfl, ?_, ?_, rfl, rfl, rfl, rfl, rfl⟩
  · simp [ctor_eq]
  · simp [ctor_eq]

end PPL
